import Mathlib

/-!
Verification of the ml4logs BERT pipeline scripts.

This file gives a shallow embedding, in Lean 4, of the pure orchestration logic
of the four Python source files

  src/bert/embed_dataset_using_pretrained_model.py
  src/bert/embed_labeled_dataset_for_anomaly_detection.py
  src/bert/encoders.py
  src/bert/train_ict_preprocessed_data.py

and proves properties of that logic.  External library calls (HuggingFace
tokenizers, the DistilBert transformer body, numpy) are modelled as abstract
function parameters; the file-system state seen by a script is modelled as an
explicit value.  Python dictionaries are modelled as association lists with
python insert/overwrite semantics, and fallible operations (dict indexing,
list indexing) return Option, with a dedicated result type recording which
exception a script run raises.
-/

namespace Ml4logs

/-! ## Path helpers (model of the parts of pathlib the scripts use) -/

/-- Splits a character list at every slash, keeping empty components. -/
def splitOnSlash (l : List Char) : List (List Char) :=
  match l with
  | [] => [[]]
  | c :: rest =>
    if c = '/' then [] :: splitOnSlash rest
    else
      match splitOnSlash rest with
      | [] => [[c]]
      | g :: gs => (c :: g) :: gs

/-- Model of pathlib's name: the last nonempty component of a path string
(pathlib drops trailing slashes and collapses duplicate separators). -/
def pathName (p : String) : String :=
  String.mk ((((splitOnSlash p.data).filter (fun s => s ≠ [])).getLast?).getD [])

/-- Index of the last occurrence of a character in a list, if any. -/
def lastIdxOf (c : Char) (l : List Char) : Option Nat :=
  match l with
  | [] => none
  | a :: as =>
    match lastIdxOf c as with
    | some j => some (j + 1)
    | none => if a = c then some 0 else none

/-- Model of pathlib's stem: the final component without its last suffix.
Python computes i = name.rfind('.') and returns name[:i] when 0 < i < len(name) - 1,
otherwise the whole name. -/
def pathStem (p : String) : String :=
  let n := (pathName p).data
  match lastIdxOf '.' n with
  | some i => if 0 < i ∧ i + 1 < n.length then String.mk (n.take i) else String.mk n
  | none => String.mk n

/-- Model of the pathlib / operator on string paths: a single trailing slash of
the left part is dropped, then the parts are joined with a slash.  (Further
pathlib normalisation, e.g. an absolute right operand, is outside what the
scripts exercise.) -/
def pathJoin (p q : String) : String :=
  (if p.data.getLast? = some '/' then String.mk p.data.dropLast else p) ++ "/" ++ q

/-! ## Output-dataset naming (embed_dataset in both embedding scripts) -/

/-- dataset_name in embed_dataset_using_pretrained_model.embed_dataset:
the conditional f-string at line 28 of that file. -/
def dataset_name_raw (inputLogFile modelPath : String)
    (datasetOutputName : Option String) : String :=
  match datasetOutputName with
  | none => pathStem inputLogFile ++ "/embedding_from_" ++ pathStem modelPath
  | some n => n

/-- dataset_name in embed_labeled_dataset_for_anomaly_detection.embed_dataset:
the conditional f-string at line 38 of that file. -/
def dataset_name_labeled (inputLogFile modelPath : String)
    (datasetOutputName : Option String) : String :=
  match datasetOutputName with
  | none => pathStem inputLogFile ++ "/labeled_embedding_from_" ++ pathStem modelPath
  | some n => n

/-- output_path in the raw embedding script: Path(output_parent_folder) / dataset_name. -/
def output_path_raw (parent inputLogFile modelPath : String)
    (datasetOutputName : Option String) : String :=
  pathJoin parent (dataset_name_raw inputLogFile modelPath datasetOutputName)

/-- output_path in the labeled embedding script: Path(output_parent_folder) / dataset_name. -/
def output_path_labeled (parent inputLogFile modelPath : String)
    (datasetOutputName : Option String) : String :=
  pathJoin parent (dataset_name_labeled inputLogFile modelPath datasetOutputName)

/-! ## Run naming (train_ict_preprocessed_data.py) -/

/-- get_run_name from train_ict_preprocessed_data.py, line 23: the f-string is
written out as the corresponding string concatenation. -/
def get_run_name (two_tower fp16 : Bool) (dataset_name : String) (seed : Int)
    (target_max_seq_len context_max_seq_len : Int)
    (train_batch_size eval_batch_size : Int) (output_encode_dim : Int)
    (encoder_type pretrained_checkpoint : String) : String :=
  encoder_type ++ " " ++ pretrained_checkpoint ++ " " ++
    (if two_tower then "2T" else "1T") ++ (if fp16 then " fp16" else "") ++ " " ++
    dataset_name ++ " Seed-" ++ toString seed ++ " T-len " ++ toString target_max_seq_len ++
    " C-len " ++ toString context_max_seq_len ++ " Tr-batch " ++ toString train_batch_size ++
    " Ev-b " ++ toString eval_batch_size ++ " O-dim " ++ toString output_encode_dim

/-- RUN_NAME.replace(' ', '_') from run_experiment, line 61: a single-character
pattern replacement is a character-wise map. -/
def replaceSpaces (s : String) : String :=
  String.mk (s.data.map (fun c => if c = ' ' then '_' else c))

/-- The output_dir argument handed to TrainingArguments in run_experiment, line 61. -/
def training_output_dir (two_tower fp16 : Bool) (dataset_name : String) (seed : Int)
    (target_max_seq_len context_max_seq_len : Int)
    (train_batch_size eval_batch_size : Int) (output_encode_dim : Int)
    (encoder_type pretrained_checkpoint : String) : String :=
  "../../models/ICT/" ++
    replaceSpaces (get_run_name two_tower fp16 dataset_name seed target_max_seq_len
      context_max_seq_len train_batch_size eval_batch_size output_encode_dim
      encoder_type pretrained_checkpoint)

/-- Decides whether pat occurs at the very front of s. -/
def leadsWith : List Char → List Char → Bool
  | [], _ => true
  | _ :: _, [] => false
  | a :: as, b :: bs => a = b && leadsWith as bs

/-- Decides whether pat occurs as a contiguous substring of s. -/
def hasSub (pat : List Char) : List Char → Bool
  | [] => leadsWith pat []
  | c :: rest => leadsWith pat (c :: rest) || hasSub pat rest

theorem leadsWith_self_append (pat t : List Char) : leadsWith pat (pat ++ t) = true := by
  induction pat with
  | nil => rfl
  | cons a as ih => simp [leadsWith, ih]

theorem hasSub_append_left (pat l r : List Char) (h : hasSub pat r = true) :
    hasSub pat (l ++ r) = true := by
  induction l with
  | nil => simpa using h
  | cons c cs ih => simp [hasSub, ih]

theorem hasSub_of_front (pat t : List Char) : hasSub pat (pat ++ t) = true := by
  cases pat with
  | nil => cases t <;> simp [hasSub, leadsWith]
  | cons a as =>
    simp only [List.cons_append, hasSub, Bool.or_eq_true]
    exact Or.inl (leadsWith_self_append (a :: as) t)

theorem hasSub_middle (pat l r : List Char) : hasSub pat (l ++ (pat ++ r)) = true :=
  hasSub_append_left pat l (pat ++ r) (hasSub_of_front pat r)

theorem replaceSpaces_no_space (s : String) :
    (replaceSpaces s).data.all (fun c => c ≠ ' ') = true := by
  simp only [replaceSpaces, List.all_eq_true]
  intro x hx
  simp only [List.mem_map] at hx
  obtain ⟨a, _, ha⟩ := hx
  subst ha
  by_cases hsp : a = ' ' <;> simp [hsp]

end Ml4logs

/-- C7 counterexample: with two_tower false and dataset_name itself containing
the characters "2T", the run name contains the substring "2T" even though
two_tower is false, so containment of "2T" does not hold exactly when two_tower
is true. -/
theorem c7_counterexample_run_name_tag :
    Ml4logs.hasSub "2T".data
      (Ml4logs.get_run_name false false "2T" 0 0 0 0 0 0 "e" "c").data = true ∧
    (false : Bool) ≠ true := by
  exact ⟨by decide, by decide⟩

/-- C7 (amended): the run name always contains "2T" when two_tower is true and
"1T" when it is false, and contains " fp16" when fp16 is true (the converse
containments can fail when a string argument itself contains the tag); the
training output directory is "../../models/ICT/" followed by the run name with
every space replaced by an underscore, and so contains no space character. -/
theorem c7_run_name_and_output_dir (two_tower fp16 : Bool) (dataset_name : String)
    (seed target_max_seq_len context_max_seq_len : Int)
    (train_batch_size eval_batch_size output_encode_dim : Int)
    (encoder_type pretrained_checkpoint : String) :
    (two_tower = true →
      Ml4logs.hasSub "2T".data
        (Ml4logs.get_run_name two_tower fp16 dataset_name seed target_max_seq_len
          context_max_seq_len train_batch_size eval_batch_size output_encode_dim
          encoder_type pretrained_checkpoint).data = true) ∧
    (two_tower = false →
      Ml4logs.hasSub "1T".data
        (Ml4logs.get_run_name two_tower fp16 dataset_name seed target_max_seq_len
          context_max_seq_len train_batch_size eval_batch_size output_encode_dim
          encoder_type pretrained_checkpoint).data = true) ∧
    (fp16 = true →
      Ml4logs.hasSub " fp16".data
        (Ml4logs.get_run_name two_tower fp16 dataset_name seed target_max_seq_len
          context_max_seq_len train_batch_size eval_batch_size output_encode_dim
          encoder_type pretrained_checkpoint).data = true) ∧
    Ml4logs.training_output_dir two_tower fp16 dataset_name seed target_max_seq_len
        context_max_seq_len train_batch_size eval_batch_size output_encode_dim
        encoder_type pretrained_checkpoint =
      "../../models/ICT/" ++
        Ml4logs.replaceSpaces (Ml4logs.get_run_name two_tower fp16 dataset_name seed
          target_max_seq_len context_max_seq_len train_batch_size eval_batch_size
          output_encode_dim encoder_type pretrained_checkpoint) ∧
    (Ml4logs.replaceSpaces (Ml4logs.get_run_name two_tower fp16 dataset_name seed
        target_max_seq_len context_max_seq_len train_batch_size eval_batch_size
        output_encode_dim encoder_type pretrained_checkpoint)).data.all
      (fun c => c ≠ ' ') = true := by
  refine ⟨?_, ?_, ?_, rfl, Ml4logs.replaceSpaces_no_space _⟩
  · intro h
    subst h
    have key := Ml4logs.hasSub_middle "2T".data
      (encoder_type ++ " " ++ pretrained_checkpoint ++ " ").data
      ((if fp16 then " fp16" else "") ++ " " ++ dataset_name ++ " Seed-" ++ toString seed ++
        " T-len " ++ toString target_max_seq_len ++ " C-len " ++ toString context_max_seq_len ++
        " Tr-batch " ++ toString train_batch_size ++ " Ev-b " ++ toString eval_batch_size ++
        " O-dim " ++ toString output_encode_dim).data
    have harr : (encoder_type ++ " " ++ pretrained_checkpoint ++ " ").data ++
        ("2T".data ++ ((if fp16 then " fp16" else "") ++ " " ++ dataset_name ++ " Seed-" ++
          toString seed ++ " T-len " ++ toString target_max_seq_len ++ " C-len " ++
          toString context_max_seq_len ++ " Tr-batch " ++ toString train_batch_size ++
          " Ev-b " ++ toString eval_batch_size ++ " O-dim " ++
          toString output_encode_dim).data) =
        (Ml4logs.get_run_name true fp16 dataset_name seed target_max_seq_len
          context_max_seq_len train_batch_size eval_batch_size output_encode_dim
          encoder_type pretrained_checkpoint).data := by
      simp [Ml4logs.get_run_name, String.data_append]
    rw [harr] at key
    exact key
  · intro h
    subst h
    have key := Ml4logs.hasSub_middle "1T".data
      (encoder_type ++ " " ++ pretrained_checkpoint ++ " ").data
      ((if fp16 then " fp16" else "") ++ " " ++ dataset_name ++ " Seed-" ++ toString seed ++
        " T-len " ++ toString target_max_seq_len ++ " C-len " ++ toString context_max_seq_len ++
        " Tr-batch " ++ toString train_batch_size ++ " Ev-b " ++ toString eval_batch_size ++
        " O-dim " ++ toString output_encode_dim).data
    have harr : (encoder_type ++ " " ++ pretrained_checkpoint ++ " ").data ++
        ("1T".data ++ ((if fp16 then " fp16" else "") ++ " " ++ dataset_name ++ " Seed-" ++
          toString seed ++ " T-len " ++ toString target_max_seq_len ++ " C-len " ++
          toString context_max_seq_len ++ " Tr-batch " ++ toString train_batch_size ++
          " Ev-b " ++ toString eval_batch_size ++ " O-dim " ++
          toString output_encode_dim).data) =
        (Ml4logs.get_run_name false fp16 dataset_name seed target_max_seq_len
          context_max_seq_len train_batch_size eval_batch_size output_encode_dim
          encoder_type pretrained_checkpoint).data := by
      simp [Ml4logs.get_run_name, String.data_append]
    rw [harr] at key
    exact key
  · intro hfp
    subst hfp
    have key := Ml4logs.hasSub_middle " fp16".data
      (encoder_type ++ " " ++ pretrained_checkpoint ++ " " ++
        (if two_tower then "2T" else "1T")).data
      (" " ++ dataset_name ++ " Seed-" ++ toString seed ++
        " T-len " ++ toString target_max_seq_len ++ " C-len " ++ toString context_max_seq_len ++
        " Tr-batch " ++ toString train_batch_size ++ " Ev-b " ++ toString eval_batch_size ++
        " O-dim " ++ toString output_encode_dim).data
    have harr : (encoder_type ++ " " ++ pretrained_checkpoint ++ " " ++
        (if two_tower then "2T" else "1T")).data ++
        (" fp16".data ++ (" " ++ dataset_name ++ " Seed-" ++
          toString seed ++ " T-len " ++ toString target_max_seq_len ++ " C-len " ++
          toString context_max_seq_len ++ " Tr-batch " ++ toString train_batch_size ++
          " Ev-b " ++ toString eval_batch_size ++ " O-dim " ++
          toString output_encode_dim).data) =
        (Ml4logs.get_run_name two_tower true dataset_name seed target_max_seq_len
          context_max_seq_len train_batch_size eval_batch_size output_encode_dim
          encoder_type pretrained_checkpoint).data := by
      simp [Ml4logs.get_run_name, String.data_append]
    rw [harr] at key
    exact key

/-- C6: with --dataset-output-name omitted the output directory is
parent/(input stem)/embedding_from_(model stem) for the raw script and
parent/(input stem)/labeled_embedding_from_(model stem) for the labeled script,
and a given --dataset-output-name is used verbatim as the subpath instead. -/
theorem c6_output_directory_naming :
    ∀ parent inputLogFile modelPath : String,
      Ml4logs.output_path_raw parent inputLogFile modelPath none =
        Ml4logs.pathJoin parent
          (Ml4logs.pathStem inputLogFile ++ "/embedding_from_" ++ Ml4logs.pathStem modelPath) ∧
      Ml4logs.output_path_labeled parent inputLogFile modelPath none =
        Ml4logs.pathJoin parent
          (Ml4logs.pathStem inputLogFile ++ "/labeled_embedding_from_" ++ Ml4logs.pathStem modelPath) ∧
      (∀ name : String,
        Ml4logs.output_path_raw parent inputLogFile modelPath (some name) =
          Ml4logs.pathJoin parent name ∧
        Ml4logs.output_path_labeled parent inputLogFile modelPath (some name) =
          Ml4logs.pathJoin parent name) ∧
      Ml4logs.output_path_raw "out" "data/HDFS.log" "models/run1.ckpt" none =
        "out/HDFS/embedding_from_run1" := by
  intro parent inputLogFile modelPath
  refine ⟨rfl, rfl, fun name => ⟨rfl, rfl⟩, by decide⟩

/-- C7 witness: the amended run-name theorem evaluated at concrete arguments,
for two_tower and fp16 both true and both false. -/
theorem c7_run_name_and_output_dir_witness :
    Ml4logs.hasSub "2T".data
      (Ml4logs.get_run_name true true "ds" 1 2 3 4 5 6 "enc" "ckpt").data = true ∧
    Ml4logs.hasSub " fp16".data
      (Ml4logs.get_run_name true true "ds" 1 2 3 4 5 6 "enc" "ckpt").data = true ∧
    Ml4logs.hasSub "1T".data
      (Ml4logs.get_run_name false false "ds" 1 2 3 4 5 6 "enc" "ckpt").data = true ∧
    Ml4logs.training_output_dir true true "ds" 1 2 3 4 5 6 "enc" "ckpt" =
      "../../models/ICT/" ++
        Ml4logs.replaceSpaces (Ml4logs.get_run_name true true "ds" 1 2 3 4 5 6 "enc" "ckpt") := by
  have h1 := c7_run_name_and_output_dir true true "ds" 1 2 3 4 5 6 "enc" "ckpt"
  have h2 := c7_run_name_and_output_dir false false "ds" 1 2 3 4 5 6 "enc" "ckpt"
  exact ⟨h1.1 rfl, h1.2.2.1 rfl, h2.2.1 rfl, h1.2.2.2.1⟩

namespace Ml4logs

/-! ## encoders.py: EmbeddingOutput and DistilBertForClsEmbedding -/

/-- EmbeddingOutput from encoders.py: a ModelOutput holding the embedding vector.
A vector is modelled as a list of rationals. -/
structure EmbeddingOutput where
  embedding : List Int
deriving DecidableEq

/-- torch.nn.Linear: a weight matrix (one row per output feature) and a bias. -/
structure LinearLayer where
  weight : List (List Int)
  bias : List Int
deriving DecidableEq

/-- Dot product of two vectors, truncating to the shorter length as torch's
matrix-vector product does for well-shaped inputs. -/
def dotProd (u v : List Int) : Int :=
  (List.zipWith (fun a b => a * b) u v).sum

/-- Applying a linear layer: one dot product plus bias per weight row. -/
def LinearLayer.apply (l : LinearLayer) (v : List Int) : List Int :=
  (l.weight.zip l.bias).map (fun wb => dotProd wb.1 v + wb.2)

/-- torch.nn.Linear(in_features, out_features) with the given weight and bias
entries: the weight has out_features rows of in_features entries each, and the
bias has out_features entries. -/
def LinearLayer.init (inFeatures outFeatures : Nat) (w : Nat → Nat → Int) (b : Nat → Int) :
    LinearLayer :=
  ⟨(List.range outFeatures).map (fun i => (List.range inFeatures).map (w i)),
   (List.range outFeatures).map b⟩

/-- The fields of the DistilBert config that DistilBertForClsEmbedding.__init__
reads: config.dim and config.task_specific_params, the latter a possibly-absent
python dict modelled as an association list of its integer entries. -/
structure DistilBertConfig where
  dim : Nat
  task_specific_params : Option (List (String × Nat))
deriving DecidableEq

/-- The output dimension chosen by __init__, lines 23-27 of encoders.py: the
dict defaults to empty when None, and setdefault returns the stored value of
the key cls_embedding_dimension when present and 512 otherwise. -/
def clsEmbeddingDimension (config : DistilBertConfig) : Nat :=
  match (config.task_specific_params.getD []).lookup "cls_embedding_dimension" with
  | some d => d
  | none => 512

/-- DistilBertForClsEmbedding: the DistilBertModel body is abstracted as a
function from the model input to the last hidden state, a list holding one
vector per token position; cls_projector is the linear head. -/
structure DistilBertForClsEmbedding (Input : Type) where
  distilbert : Input → List (List Int)
  cls_projector : LinearLayer

/-- DistilBertForClsEmbedding.forward, lines 31-35 of encoders.py: run the
DistilBert body, take position 0 of the last hidden state (the sequence always
starts with the [CLS] token, so headD's default is never taken on real inputs)
and apply cls_projector to it. -/
def DistilBertForClsEmbedding.forward {Input : Type}
    (m : DistilBertForClsEmbedding Input) (x : Input) : EmbeddingOutput :=
  let bert_output := m.distilbert x
  let cls_token_embedding := bert_output.headD []
  let cls_encoding := m.cls_projector.apply cls_token_embedding
  ⟨cls_encoding⟩

/-- DistilBertForClsEmbedding.__init__, lines 21-29 of encoders.py: build the
DistilBert body for the config and a linear head of shape
(config.dim, cls_embedding_dimension), with init_weights abstracted as the
entry generators w and b. -/
def DistilBertForClsEmbedding.init {Input : Type} (config : DistilBertConfig)
    (distilbertBody : Input → List (List Int)) (w : Nat → Nat → Int) (b : Nat → Int) :
    DistilBertForClsEmbedding Input :=
  { distilbert := distilbertBody,
    cls_projector := LinearLayer.init config.dim (clsEmbeddingDimension config) w b }

theorem LinearLayer.apply_init_length (inF outF : Nat) (w : Nat → Nat → Int) (b : Nat → Int)
    (v : List Int) : ((LinearLayer.init inF outF w b).apply v).length = outF := by
  simp [LinearLayer.apply, LinearLayer.init, List.length_zip]

end Ml4logs

/-- C2: forward returns exactly the cls_projector applied to position 0 of the
DistilBert last hidden state, and any two models agreeing on the projector and
on position 0 of the hidden state produce the same output, so no other position
contributes. -/
theorem c2_forward_is_projected_cls {Input Input' : Type}
    (m : Ml4logs.DistilBertForClsEmbedding Input) (x : Input) :
    m.forward x =
      Ml4logs.EmbeddingOutput.mk (m.cls_projector.apply ((m.distilbert x).headD [])) ∧
    (∀ (m' : Ml4logs.DistilBertForClsEmbedding Input') (x' : Input'),
      m'.cls_projector = m.cls_projector →
      (m'.distilbert x').headD [] = (m.distilbert x).headD [] →
      m'.forward x' = m.forward x) := by
  refine ⟨rfl, fun m' x' hproj hhid => ?_⟩
  show Ml4logs.EmbeddingOutput.mk (m'.cls_projector.apply ((m'.distilbert x').headD [])) =
    Ml4logs.EmbeddingOutput.mk (m.cls_projector.apply ((m.distilbert x).headD []))
  rw [hproj, hhid]

/-- C2 witness: the forward theorem evaluated at a concrete two-position hidden
state; the output is the projection of position 0 alone, and a model whose
hidden state differs only away from position 0 gives the same output. -/
theorem c2_forward_is_projected_cls_witness :
    (Ml4logs.DistilBertForClsEmbedding.mk
        (fun _ : Unit => [[(1 : Int), 2], [5, 7]]) ⟨[[1, 0], [0, 1]], [0, 0]⟩).forward () =
      Ml4logs.EmbeddingOutput.mk [(1 : Int), 2] ∧
    (Ml4logs.DistilBertForClsEmbedding.mk
        (fun _ : Unit => [[(1 : Int), 2], [9, 9]]) ⟨[[1, 0], [0, 1]], [0, 0]⟩).forward () =
      (Ml4logs.DistilBertForClsEmbedding.mk
        (fun _ : Unit => [[(1 : Int), 2], [5, 7]]) ⟨[[1, 0], [0, 1]], [0, 0]⟩).forward () := by
  have h := @c2_forward_is_projected_cls Unit Unit
    (Ml4logs.DistilBertForClsEmbedding.mk
      (fun _ : Unit => [[(1 : Int), 2], [5, 7]]) ⟨[[1, 0], [0, 1]], [0, 0]⟩) ()
  refine ⟨?_, h.2 (Ml4logs.DistilBertForClsEmbedding.mk
      (fun _ : Unit => [[(1 : Int), 2], [9, 9]]) ⟨[[1, 0], [0, 1]], [0, 0]⟩) () rfl rfl⟩
  rw [h.1]
  decide

/-- C3: for a model built by __init__ the embedding length equals the configured
cls_embedding_dimension for every input, hence is independent of the input, and
that dimension is 512 whenever the config does not set it (either because
task_specific_params is None or because the key is absent). -/
theorem c3_embedding_dimension_fixed {Input : Type} (config : Ml4logs.DistilBertConfig)
    (distilbertBody : Input → List (List Int)) (w : Nat → Nat → Int) (b : Nat → Int)
    (x x' : Input) :
    ((Ml4logs.DistilBertForClsEmbedding.init config distilbertBody w b).forward x).embedding.length =
      Ml4logs.clsEmbeddingDimension config ∧
    ((Ml4logs.DistilBertForClsEmbedding.init config distilbertBody w b).forward x).embedding.length =
      ((Ml4logs.DistilBertForClsEmbedding.init config distilbertBody w b).forward x').embedding.length ∧
    ((config.task_specific_params.getD []).lookup "cls_embedding_dimension" = none →
      Ml4logs.clsEmbeddingDimension config = 512) := by
  have hlen : ∀ y : Input,
      ((Ml4logs.DistilBertForClsEmbedding.init config distilbertBody w b).forward y).embedding.length =
        Ml4logs.clsEmbeddingDimension config := by
    intro y
    simp [Ml4logs.DistilBertForClsEmbedding.forward, Ml4logs.DistilBertForClsEmbedding.init,
      Ml4logs.LinearLayer.apply_init_length]
  refine ⟨hlen x, (hlen x).trans (hlen x').symm, fun hnone => ?_⟩
  simp [Ml4logs.clsEmbeddingDimension, hnone]

/-- C3 witness: the dimension theorem at a concrete config without the key
(dimension defaults to 512) on inputs of different token lengths. -/
theorem c3_embedding_dimension_fixed_witness :
    ((Ml4logs.DistilBertForClsEmbedding.init ⟨3, none⟩
        (fun n : Nat => List.replicate n [(1 : Int), 2, 3]) (fun _ _ => 1) (fun _ => 0)).forward
        2).embedding.length = Ml4logs.clsEmbeddingDimension ⟨3, none⟩ ∧
    ((Ml4logs.DistilBertForClsEmbedding.init ⟨3, none⟩
        (fun n : Nat => List.replicate n [(1 : Int), 2, 3]) (fun _ _ => 1) (fun _ => 0)).forward
        2).embedding.length =
      ((Ml4logs.DistilBertForClsEmbedding.init ⟨3, none⟩
        (fun n : Nat => List.replicate n [(1 : Int), 2, 3]) (fun _ _ => 1) (fun _ => 0)).forward
        7).embedding.length ∧
    Ml4logs.clsEmbeddingDimension ⟨3, none⟩ = 512 := by
  have h := c3_embedding_dimension_fixed ⟨3, none⟩
    (fun n : Nat => List.replicate n [(1 : Int), 2, 3]) (fun _ _ => 1) (fun _ => 0) 2 7
  exact ⟨h.1, h.2.1, h.2.2 rfl⟩

namespace Ml4logs

/-! ## Python dict model: association lists with insert-or-overwrite -/

/-- Looks a key up in an association list (first match). -/
def dictLookup {α : Type} (d : List (String × α)) (k : String) : Option α :=
  match d with
  | [] => none
  | (k', v) :: d' => if k' = k then some v else dictLookup d' k

/-- Python dict assignment d[k] = v on the association-list representation:
replaces the first binding of an existing key, else appends at the end
(python dicts preserve insertion order). -/
def dictInsert {α : Type} (d : List (String × α)) (k : String) (v : α) :
    List (String × α) :=
  match d with
  | [] => [(k, v)]
  | (k', v') :: d' => if k' = k then (k, v) :: d' else (k', v') :: dictInsert d' k v

/-- Builds a python dict from a stream of key-value pairs, later pairs
overwriting earlier ones, as a dict comprehension does. -/
def dictOfList {α : Type} (l : List (String × α)) : List (String × α) :=
  l.foldl (fun d p => dictInsert d p.1 p.2) []

theorem dictLookup_dictInsert_some {α : Type} (d : List (String × α)) (a k : String)
    (b v : α) (h : dictLookup (dictInsert d a b) k = some v) :
    dictLookup d k = some v ∨ (a = k ∧ b = v) := by
  induction d with
  | nil =>
    simp only [dictInsert, dictLookup] at h
    by_cases hak : a = k
    · rw [if_pos hak] at h
      exact Or.inr ⟨hak, Option.some.inj h⟩
    · rw [if_neg hak] at h
      simp [dictLookup] at h
  | cons p d' ih =>
    obtain ⟨k', v'⟩ := p
    by_cases hk' : k' = a
    · rw [show dictInsert ((k', v') :: d') a b = (a, b) :: d' from by
        simp [dictInsert, hk']] at h
      simp only [dictLookup] at h ⊢
      by_cases hak : a = k
      · rw [if_pos hak] at h
        exact Or.inr ⟨hak, Option.some.inj h⟩
      · rw [if_neg hak] at h
        rw [hk', if_neg hak]
        exact Or.inl h
    · rw [show dictInsert ((k', v') :: d') a b = (k', v') :: dictInsert d' a b from by
        simp [dictInsert, hk']] at h
      simp only [dictLookup] at h ⊢
      by_cases hkk : k' = k
      · rw [if_pos hkk] at h
        rw [if_pos hkk]
        exact Or.inl h
      · rw [if_neg hkk] at h
        rw [if_neg hkk]
        exact ih h

theorem dictLookup_dictInsert_none {α : Type} (d : List (String × α)) (a k : String)
    (b : α) (hd : dictLookup d k = none) (hak : a ≠ k) :
    dictLookup (dictInsert d a b) k = none := by
  induction d with
  | nil => simp [dictInsert, dictLookup, hak]
  | cons p d' ih =>
    obtain ⟨k', v'⟩ := p
    simp only [dictLookup] at hd
    by_cases hkk : k' = k
    · simp [hkk] at hd
    · rw [if_neg hkk] at hd
      by_cases hk' : k' = a
      · rw [show dictInsert ((k', v') :: d') a b = (a, b) :: d' from by
          simp [dictInsert, hk']]
        simp [dictLookup, hak, hd]
      · rw [show dictInsert ((k', v') :: d') a b = (k', v') :: dictInsert d' a b from by
          simp [dictInsert, hk']]
        simp only [dictLookup, if_neg hkk]
        exact ih hd

theorem dictLookup_foldl_some {α : Type} (l : List (String × α)) (k : String) (v : α) :
    ∀ acc : List (String × α),
      dictLookup (l.foldl (fun d p => dictInsert d p.1 p.2) acc) k = some v →
      dictLookup acc k = some v ∨ (k, v) ∈ l := by
  induction l with
  | nil => intro acc hacc; exact Or.inl hacc
  | cons p rest ih =>
    intro acc hacc
    obtain ⟨a, b⟩ := p
    simp only [List.foldl_cons] at hacc
    rcases ih (dictInsert acc a b) hacc with h3 | h3
    · rcases dictLookup_dictInsert_some acc a k b v h3 with h4 | ⟨h4, h5⟩
      · exact Or.inl h4
      · rw [← h4, ← h5]
        exact Or.inr (List.mem_cons_self _ _)
    · exact Or.inr (List.mem_cons_of_mem _ h3)

theorem dictLookup_dictOfList_mem {α : Type} (l : List (String × α)) (k : String) (v : α)
    (h : dictLookup (dictOfList l) k = some v) : (k, v) ∈ l := by
  rcases dictLookup_foldl_some l k v [] h with h2 | h2
  · simp [dictLookup] at h2
  · exact h2

theorem dictLookup_foldl_none {α : Type} (l : List (String × α)) (k : String)
    (h : ∀ p ∈ l, p.1 ≠ k) :
    ∀ acc : List (String × α), dictLookup acc k = none →
      dictLookup (l.foldl (fun d p => dictInsert d p.1 p.2) acc) k = none := by
  induction l with
  | nil => intro acc hacc; exact hacc
  | cons p rest ih =>
    intro acc hacc
    obtain ⟨a, b⟩ := p
    have ha : a ≠ k := h (a, b) (List.mem_cons_self _ _)
    simp only [List.foldl_cons]
    exact ih (fun q hq => h q (List.mem_cons_of_mem _ hq)) (dictInsert acc a b)
      (dictLookup_dictInsert_none acc a k b hacc ha)

theorem dictLookup_dictOfList_none {α : Type} (l : List (String × α)) (k : String)
    (h : ∀ p ∈ l, p.1 ≠ k) : dictLookup (dictOfList l) k = none :=
  dictLookup_foldl_none l k h [] rfl

/-! ## embed_labeled_dataset_for_anomaly_detection.py: the embedding core -/

/-- encode_batch, lines 20-27: tokenize the batch of block lines and run the
encoder on the token batch under torch.no_grad; tokenizer and encoder forward
pass are the external library calls, abstracted as functions. -/
def encode_batch {T E : Type} (tokenizer : List String → T) (encoder : T → E)
    (batch : List String) : E :=
  encoder (tokenizer batch)

/-- The dict comprehension at line 63: one encode_batch call per block of the
grouped dataset, keyed by block id.  The grouped dataset (a python dict from
load_hdfs1_log_file_grouped) is an association list with unique keys, and a
comprehension over its items maps each binding. -/
def embedded_dataset {T E : Type} (tokenizer : List String → T) (encoder : T → E)
    (dataset : List (String × List String)) : List (String × E) :=
  dataset.map (fun p => (p.1, encode_batch tokenizer encoder p.2))

/-- One row of the labels CSV: its BlockId and Label fields. -/
structure LabelRow where
  blockId : String
  label : String
deriving DecidableEq

/-- The list comprehension at line 67: embedded_dataset[block_id] for the
BlockId of each CSV row, in CSV row order; a missing id raises KeyError, so
the result is an Option, none standing for the raised KeyError. -/
def ordered_by_label {E : Type} (embedded : List (String × E)) (rows : List LabelRow) :
    Option (List E) :=
  rows.mapM (fun r => dictLookup embedded r.blockId)

/-- The y array written at line 73: the CSV converter maps each Label field to
(x == 'Anomaly') and to_numpy(dtype=int8) stores it as 1 or 0, row by row. -/
def labels_y (rows : List LabelRow) : List Nat :=
  rows.map (fun r => if r.label = "Anomaly" then 1 else 0)

theorem mapM_option_spec {α β : Type} (f : α → Option β) :
    ∀ (l : List α) (ys : List β), l.mapM f = some ys →
      ys.length = l.length ∧ ∀ i : Nat, ys[i]? = l[i]?.bind f := by
  intro l
  induction l with
  | nil =>
    intro ys h
    simp only [List.mapM_nil] at h
    cases h
    exact ⟨rfl, fun i => by simp⟩
  | cons a l' ih =>
    intro ys h
    simp only [List.mapM_cons, Option.bind_eq_bind, Option.pure_def, Option.bind_eq_some,
      Option.some.injEq] at h
    obtain ⟨b, hb, bs, hbs, hys⟩ := h
    obtain ⟨hlen, hidx⟩ := ih bs hbs
    subst hys
    refine ⟨by simp [hlen], fun i => ?_⟩
    cases i with
    | zero => simp [hb]
    | succ j => simpa using hidx j

theorem dictLookup_embedded_dataset {T E : Type} (tokenizer : List String → T)
    (encoder : T → E) (dataset : List (String × List String)) (bid : String) :
    dictLookup (embedded_dataset tokenizer encoder dataset) bid =
      (dictLookup dataset bid).map (encode_batch tokenizer encoder) := by
  induction dataset with
  | nil => rfl
  | cons p rest ih =>
    obtain ⟨k, lines⟩ := p
    by_cases hk : k = bid
    · simp [embedded_dataset, dictLookup, hk]
    · simpa [embedded_dataset, dictLookup, hk] using ih

end Ml4logs

/-- C4: the embedding unit is the block: the embedded dataset has exactly the
block ids of the grouped input as keys, in order, and looking a block id up in
it yields exactly one embedding, the single encode_batch result over all of
that block's lines. -/
theorem c4_block_is_embedding_unit {T E : Type} (tokenizer : List String → T)
    (encoder : T → E) (dataset : List (String × List String)) :
    (Ml4logs.embedded_dataset tokenizer encoder dataset).map Prod.fst =
      dataset.map Prod.fst ∧
    ∀ bid : String,
      Ml4logs.dictLookup (Ml4logs.embedded_dataset tokenizer encoder dataset) bid =
        (Ml4logs.dictLookup dataset bid).map
          (Ml4logs.encode_batch tokenizer encoder) := by
  constructor
  · simp [Ml4logs.embedded_dataset]
  · intro bid
    exact Ml4logs.dictLookup_embedded_dataset tokenizer encoder dataset bid

/-- C1: when the ordered list succeeds (every CSV BlockId is a block of the
grouped dataset), X and y both have one entry per CSV row, the i-th entry of X
is the encode_batch embedding of the block whose id is in row i, and the i-th
entry of y is 1 exactly when that row's Label field equals "Anomaly". -/
theorem c1_labeled_output_alignment {T E : Type} (tokenizer : List String → T)
    (encoder : T → E) (dataset : List (String × List String))
    (rows : List Ml4logs.LabelRow) (X : List E)
    (hX : Ml4logs.ordered_by_label (Ml4logs.embedded_dataset tokenizer encoder dataset)
      rows = some X) :
    X.length = rows.length ∧ (Ml4logs.labels_y rows).length = rows.length ∧
    ∀ (i : Nat) (r : Ml4logs.LabelRow), rows[i]? = some r →
      (∃ lines : List String, Ml4logs.dictLookup dataset r.blockId = some lines ∧
        X[i]? = some (Ml4logs.encode_batch tokenizer encoder lines)) ∧
      (Ml4logs.labels_y rows)[i]? = some (if r.label = "Anomaly" then 1 else 0) := by
  obtain ⟨hlen, hidx⟩ := Ml4logs.mapM_option_spec _ rows X hX
  refine ⟨hlen, by simp [Ml4logs.labels_y], fun i r hr => ?_⟩
  have hXi : X[i]? =
      Ml4logs.dictLookup (Ml4logs.embedded_dataset tokenizer encoder dataset) r.blockId := by
    rw [hidx i, hr]
    rfl
  have hemb := Ml4logs.dictLookup_embedded_dataset tokenizer encoder dataset r.blockId
  rw [hemb] at hXi
  constructor
  · have hXlen : i < X.length := by
      rw [hlen]
      exact (List.getElem?_eq_some.mp hr).1
    obtain ⟨x, hx⟩ : ∃ x, X[i]? = some x := by
      rw [List.getElem?_eq_getElem hXlen]
      exact ⟨_, rfl⟩
    rw [hx] at hXi
    obtain ⟨lines, hl, hel⟩ := Option.map_eq_some'.mp hXi.symm
    exact ⟨lines, hl, by rw [hx, hel]⟩
  · simp [Ml4logs.labels_y, List.getElem?_map, hr]

/-- C1 witness: the alignment theorem at a concrete two-row dataset, with the
tokenizer the identity and the encoder the batch length. -/
theorem c1_labeled_output_alignment_witness :
    Ml4logs.dictLookup [("blk1", ["a", "b"]), ("blk2", ["c"])] "blk1" = some ["a", "b"] ∧
    ([2, 1] : List Nat)[0]? =
      some (Ml4logs.encode_batch (fun l : List String => l) List.length ["a", "b"]) ∧
    (Ml4logs.labels_y
      [Ml4logs.LabelRow.mk "blk1" "Anomaly", Ml4logs.LabelRow.mk "blk2" "Normal"])[0]? =
      some 1 := by
  have h := c1_labeled_output_alignment (fun l : List String => l) List.length
    [("blk1", ["a", "b"]), ("blk2", ["c"])]
    [Ml4logs.LabelRow.mk "blk1" "Anomaly", Ml4logs.LabelRow.mk "blk2" "Normal"]
    [2, 1] (by decide)
  obtain ⟨⟨lines, hl, hx⟩, hy⟩ := h.2.2 0 (Ml4logs.LabelRow.mk "blk1" "Anomaly") (by decide)
  have hlines : lines = ["a", "b"] := by
    have h2 : some lines = some ["a", "b"] := by
      rw [← hl]
      decide
    exact Option.some.inj h2
  subst hlines
  exact ⟨hl, hx, hy⟩

namespace Ml4logs

/-! ## File-system state and the script runs -/

/-- What a script can observe about its output path: absent, an existing
regular file, or an existing directory with the listed entries. -/
inductive PathState where
  | absent
  | file
  | dir (entries : List String)
deriving DecidableEq

/-- output_path.exists() -/
def PathState.existsB : PathState → Bool
  | .absent => false
  | _ => true

/-- output_path.is_dir() -/
def PathState.is_dir : PathState → Bool
  | .dir _ => true
  | _ => false

/-- any(output_path.iterdir()) -/
def PathState.iterdirAny : PathState → Bool
  | .dir es => !es.isEmpty
  | _ => false

/-- The condition of the output-path assert, identical at line 30 of the raw
script and line 40 of the labeled script:
(not exists) or (exists and is_dir and not any(iterdir)). -/
def output_path_assert_ok (ps : PathState) : Bool :=
  (!ps.existsB) || (ps.existsB && ps.is_dir && !ps.iterdirAny)

/-- Outcome of a script run: which exception is raised, or the produced output.
Only a run that returns ok has reached the code that writes files. -/
inductive ScriptResult (O : Type) where
  | missingArgError (msg : String)
  | assertionError (path : String)
  | indexError
  | keyError
  | ok (out : O)
deriving DecidableEq

/-- An encoder class known to the encoders module: its python __name__ and the
embedding function obtained by from_pretrained(model_path) followed by forward.
KNOWN_ENCODER_CLASSES itself is imported from encoders.py but not defined in
the provided file, so the known classes are a parameter of the run. -/
structure EncoderClass (T E : Type) where
  className : String
  run : T → E

/-- The dict comprehension at line 56 of the labeled script:
available_encoder_classes_dict = the known classes keyed by __name__
(a python dict built by iteration, later duplicates overwriting earlier). -/
def available_encoder_classes_dict {T E : Type} (classes : List (EncoderClass T E)) :
    List (String × EncoderClass T E) :=
  dictOfList (classes.map (fun c => (c.className, c)))

/-- The relevant argparse fields of the labeled embedding script. -/
structure LabeledConfig where
  model_path : Option String
  base_model_name : String
  dataset_output_name : Option String
  output_parent_folder : Option String
  input_dataset_log_file : Option String
  input_dataset_labels_csv : Option String

/-- The external world of the labeled embedding script: the file-system state
of each path, the grouped dataset returned by load_hdfs1_log_file_grouped, the
parsed label CSV rows, the tokenizer, the known encoder classes and the
architectures list of the saved model config. -/
structure LabeledEnv (T E : Type) where
  pathState : String → PathState
  dataset : List (String × List String)
  labelRows : List LabelRow
  tokenizer : List String → T
  knownEncoderClasses : List (EncoderClass T E)
  modelArchitectures : List String

/-- What the labeled script writes on success: the pickled X list and the y
array. -/
structure LabeledOutputs (E : Type) where
  X : List E
  y : List Nat
deriving DecidableEq

/-- embed_dataset of embed_labeled_dataset_for_anomaly_detection.py, lines
30-73, in source order: the four argument asserts, the output-path assert,
dataset and label loading, encoder class selection (KeyError when the first
architecture names no known class, IndexError when the architectures list is
empty), per-block embedding, ordering by the label rows and the final writes;
a non-ok result is the exception raised before anything is written. -/
def embed_dataset_labeled {T E : Type} (config : LabeledConfig) (env : LabeledEnv T E) :
    ScriptResult (LabeledOutputs E) :=
  match config.model_path, config.input_dataset_log_file,
      config.input_dataset_labels_csv, config.output_parent_folder with
  | some mp, some logf, some _, some parent =>
    let output_path := pathJoin parent (dataset_name_labeled logf mp config.dataset_output_name)
    if output_path_assert_ok (env.pathState output_path) then
      match env.modelArchitectures with
      | [] => .indexError
      | a0 :: _ =>
        match dictLookup (available_encoder_classes_dict env.knownEncoderClasses) a0 with
        | none => .keyError
        | some cls =>
          let embedded := embedded_dataset env.tokenizer cls.run env.dataset
          match ordered_by_label embedded env.labelRows with
          | none => .keyError
          | some X => .ok ⟨X, labels_y env.labelRows⟩
    else .assertionError output_path
  | none, _, _, _ => .missingArgError "Model path must be specified!"
  | some _, none, _, _ => .missingArgError "Input dataset must be specified!"
  | some _, some _, none, _ => .missingArgError "Input dataset labels must be specified!"
  | some _, some _, some _, none => .missingArgError "Output parent folder must be specified!"

/-- The relevant argparse fields of the raw embedding script. -/
structure RawConfig where
  model_path : Option String
  base_model_name : String
  dataset_output_name : Option String
  output_parent_folder : Option String
  input_dataset_log_file : Option String
  batch_size : Nat
  remove_hdfs1_timestamp : Bool

/-- The external world of the raw embedding script: the file-system state, the
text dataset loaded by load_dataset, remove_timestamp from dataset_utils, the
tokenizer, and the pretrained encoder batch forward (one embedding per batch
line). -/
structure RawEnv (T E : Type) where
  pathState : String → PathState
  dataset : List String
  removeTimestamp : String → String
  tokenizer : List String → T
  encoder : T → List E

/-- Splits a list into consecutive chunks of size n, as dataset.map with
batched=True and batch_size=n does (a final shorter chunk is kept). -/
def toBatches {α : Type} (n : Nat) (l : List α) : List (List α) :=
  match l with
  | [] => []
  | a :: rest =>
    if n = 0 then [a :: rest]
    else (a :: rest).take n :: toBatches n ((a :: rest).drop n)
termination_by l.length
decreasing_by
  simp only [List.length_drop]
  rename_i hn
  simp only [List.length_cons]
  omega

/-- encode_dataset of embed_dataset_using_pretrained_model.py, lines 12-19:
tokenize the batch of texts and run the encoder under torch.no_grad, giving one
embedding per batch element. -/
def encode_dataset {T E : Type} (tokenizer : List String → T) (encoder : T → List E)
    (examples : List String) : List E :=
  encoder (tokenizer examples)

/-- embed_dataset of embed_dataset_using_pretrained_model.py, lines 22-64, in
source order: the three argument asserts, the output-path assert, dataset
loading, optional timestamp removal, batched embedding and the final save. -/
def embed_dataset_raw {T E : Type} (config : RawConfig) (env : RawEnv T E) :
    ScriptResult (List E) :=
  match config.model_path, config.input_dataset_log_file, config.output_parent_folder with
  | some mp, some logf, some parent =>
    let output_path := pathJoin parent (dataset_name_raw logf mp config.dataset_output_name)
    if output_path_assert_ok (env.pathState output_path) then
      let cleaned_dataset :=
        if config.remove_hdfs1_timestamp then env.dataset.map env.removeTimestamp
        else env.dataset
      .ok ((toBatches config.batch_size cleaned_dataset).map
        (encode_dataset env.tokenizer env.encoder)).flatten
    else .assertionError output_path
  | none, _, _ => .missingArgError "Model path must be specified!"
  | some _, none, _ => .missingArgError "Input dataset must be specified!"
  | some _, some _, none => .missingArgError "Output parent folder must be specified!"

end Ml4logs

/-- C8: the output-path assert passes exactly when the output path is absent or
an existing empty directory; in every other state (a nonempty directory or a
regular file) each embedding script raises AssertionError on the output path
before loading or writing anything, and when the assert passes neither script
raises that AssertionError. -/
theorem c8_output_path_assert_gate {T E U F : Type}
    (rcfg : Ml4logs.RawConfig) (renv : Ml4logs.RawEnv T E)
    (lcfg : Ml4logs.LabeledConfig) (lenv : Ml4logs.LabeledEnv U F)
    (mp logf parent mp2 logf2 labels2 parent2 : String)
    (hmp : rcfg.model_path = some mp) (hlog : rcfg.input_dataset_log_file = some logf)
    (hpar : rcfg.output_parent_folder = some parent)
    (hmp2 : lcfg.model_path = some mp2) (hlog2 : lcfg.input_dataset_log_file = some logf2)
    (hlab2 : lcfg.input_dataset_labels_csv = some labels2)
    (hpar2 : lcfg.output_parent_folder = some parent2) :
    (∀ ps : Ml4logs.PathState, Ml4logs.output_path_assert_ok ps = true ↔
      (ps = Ml4logs.PathState.absent ∨ ps = Ml4logs.PathState.dir [])) ∧
    (¬ (renv.pathState (Ml4logs.output_path_raw parent logf mp rcfg.dataset_output_name) =
          Ml4logs.PathState.absent ∨
        renv.pathState (Ml4logs.output_path_raw parent logf mp rcfg.dataset_output_name) =
          Ml4logs.PathState.dir []) →
      Ml4logs.embed_dataset_raw rcfg renv =
        Ml4logs.ScriptResult.assertionError
          (Ml4logs.output_path_raw parent logf mp rcfg.dataset_output_name)) ∧
    ((renv.pathState (Ml4logs.output_path_raw parent logf mp rcfg.dataset_output_name) =
          Ml4logs.PathState.absent ∨
        renv.pathState (Ml4logs.output_path_raw parent logf mp rcfg.dataset_output_name) =
          Ml4logs.PathState.dir []) →
      ∀ q : String, Ml4logs.embed_dataset_raw rcfg renv ≠ Ml4logs.ScriptResult.assertionError q) ∧
    (¬ (lenv.pathState (Ml4logs.output_path_labeled parent2 logf2 mp2 lcfg.dataset_output_name) =
          Ml4logs.PathState.absent ∨
        lenv.pathState (Ml4logs.output_path_labeled parent2 logf2 mp2 lcfg.dataset_output_name) =
          Ml4logs.PathState.dir []) →
      Ml4logs.embed_dataset_labeled lcfg lenv =
        Ml4logs.ScriptResult.assertionError
          (Ml4logs.output_path_labeled parent2 logf2 mp2 lcfg.dataset_output_name)) ∧
    ((lenv.pathState (Ml4logs.output_path_labeled parent2 logf2 mp2 lcfg.dataset_output_name) =
          Ml4logs.PathState.absent ∨
        lenv.pathState (Ml4logs.output_path_labeled parent2 logf2 mp2 lcfg.dataset_output_name) =
          Ml4logs.PathState.dir []) →
      ∀ q : String,
        Ml4logs.embed_dataset_labeled lcfg lenv ≠ Ml4logs.ScriptResult.assertionError q) := by
  have hchar : ∀ ps : Ml4logs.PathState, Ml4logs.output_path_assert_ok ps = true ↔
      (ps = Ml4logs.PathState.absent ∨ ps = Ml4logs.PathState.dir []) := by
    intro ps
    cases ps with
    | absent => simp [Ml4logs.output_path_assert_ok, Ml4logs.PathState.existsB]
    | file =>
      simp [Ml4logs.output_path_assert_ok, Ml4logs.PathState.existsB, Ml4logs.PathState.is_dir]
    | dir es =>
      simp [Ml4logs.output_path_assert_ok, Ml4logs.PathState.existsB, Ml4logs.PathState.is_dir,
        Ml4logs.PathState.iterdirAny, List.isEmpty_iff]
  refine ⟨hchar, ?_, ?_, ?_, ?_⟩
  · intro hbad
    simp only [Ml4logs.output_path_raw] at hbad ⊢
    have hguard : Ml4logs.output_path_assert_ok (renv.pathState
        (Ml4logs.pathJoin parent (Ml4logs.dataset_name_raw logf mp
          rcfg.dataset_output_name))) = false := by
      cases hb : Ml4logs.output_path_assert_ok (renv.pathState
        (Ml4logs.pathJoin parent (Ml4logs.dataset_name_raw logf mp
          rcfg.dataset_output_name))) with
      | false => rfl
      | true => exact absurd ((hchar _).mp hb) hbad
    simp [Ml4logs.embed_dataset_raw, hmp, hlog, hpar, hguard]
  · intro hgood q
    simp only [Ml4logs.output_path_raw] at hgood
    have hguard := (hchar _).mpr hgood
    simp [Ml4logs.embed_dataset_raw, hmp, hlog, hpar, hguard]
  · intro hbad
    simp only [Ml4logs.output_path_labeled] at hbad ⊢
    have hguard : Ml4logs.output_path_assert_ok (lenv.pathState
        (Ml4logs.pathJoin parent2 (Ml4logs.dataset_name_labeled logf2 mp2
          lcfg.dataset_output_name))) = false := by
      cases hb : Ml4logs.output_path_assert_ok (lenv.pathState
        (Ml4logs.pathJoin parent2 (Ml4logs.dataset_name_labeled logf2 mp2
          lcfg.dataset_output_name))) with
      | false => rfl
      | true => exact absurd ((hchar _).mp hb) hbad
    simp [Ml4logs.embed_dataset_labeled, hmp2, hlog2, hlab2, hpar2, hguard]
  · intro hgood q
    simp only [Ml4logs.output_path_labeled] at hgood
    have hguard := (hchar _).mpr hgood
    simp only [Ml4logs.embed_dataset_labeled, hmp2, hlog2, hlab2, hpar2, hguard]
    cases lenv.modelArchitectures with
    | nil => simp
    | cons a0 rest =>
      rcases hsel : Ml4logs.dictLookup
          (Ml4logs.available_encoder_classes_dict lenv.knownEncoderClasses) a0 with _ | cls
      · simp [hsel]
      · rcases hord : Ml4logs.ordered_by_label
            (Ml4logs.embedded_dataset lenv.tokenizer cls.run lenv.dataset) lenv.labelRows with
          _ | X
        · simp [hsel, hord]
        · simp [hsel, hord]

/-- C8 witness: the assert-gate theorem evaluated at concrete runs: the raw
script hits a regular file at its output path and the labeled script a
nonempty directory, and both runs end in the AssertionError. -/
theorem c8_output_path_assert_gate_witness :
    Ml4logs.embed_dataset_raw
      (Ml4logs.RawConfig.mk (some "m.bin") "distilbert-base-cased" none (some "out")
        (some "in.log") 2 false)
      (Ml4logs.RawEnv.mk (fun _ => Ml4logs.PathState.file) ["l1", "l2"] (fun s => s)
        (fun l => l.length) (fun n => List.range n)) =
      Ml4logs.ScriptResult.assertionError "out/in/embedding_from_m" ∧
    Ml4logs.embed_dataset_labeled
      (Ml4logs.LabeledConfig.mk (some "m.bin") "distilbert-base-cased" none (some "out")
        (some "in.log") (some "l.csv"))
      (Ml4logs.LabeledEnv.mk (fun _ => Ml4logs.PathState.dir ["x"]) [("b1", ["l"])]
        [Ml4logs.LabelRow.mk "b1" "Normal"] (fun l => l.length)
        ([] : List (Ml4logs.EncoderClass Nat Nat)) []) =
      Ml4logs.ScriptResult.assertionError "out/in/labeled_embedding_from_m" := by
  have h := c8_output_path_assert_gate
    (Ml4logs.RawConfig.mk (some "m.bin") "distilbert-base-cased" none (some "out")
      (some "in.log") 2 false)
    (Ml4logs.RawEnv.mk (fun _ => Ml4logs.PathState.file) ["l1", "l2"] (fun s => s)
      (fun l => l.length) (fun n => List.range n))
    (Ml4logs.LabeledConfig.mk (some "m.bin") "distilbert-base-cased" none (some "out")
      (some "in.log") (some "l.csv"))
    (Ml4logs.LabeledEnv.mk (fun _ => Ml4logs.PathState.dir ["x"]) [("b1", ["l"])]
      [Ml4logs.LabelRow.mk "b1" "Normal"] (fun l => l.length)
      ([] : List (Ml4logs.EncoderClass Nat Nat)) [])
    "m.bin" "in.log" "out" "m.bin" "in.log" "l.csv" "out"
    rfl rfl rfl rfl rfl rfl rfl
  have h1 := h.2.1 (by decide)
  have h2 := h.2.2.2.1 (by decide)
  exact ⟨h1.trans (by decide), h2.trans (by decide)⟩

/-- C9: in the labeled script, when the output-path assert passes and the model
config has a first architecture name, a selected encoder class is always one of
the known classes and its python name equals that first architecture entry, and
when no known class has that name the run ends in KeyError, before any
embedding is computed or anything is written. -/
theorem c9_encoder_class_selection {U F : Type}
    (lcfg : Ml4logs.LabeledConfig) (lenv : Ml4logs.LabeledEnv U F)
    (mp2 logf2 labels2 parent2 a0 : String) (rest : List String)
    (hmp2 : lcfg.model_path = some mp2) (hlog2 : lcfg.input_dataset_log_file = some logf2)
    (hlab2 : lcfg.input_dataset_labels_csv = some labels2)
    (hpar2 : lcfg.output_parent_folder = some parent2)
    (harch : lenv.modelArchitectures = a0 :: rest)
    (hok : Ml4logs.output_path_assert_ok (lenv.pathState
      (Ml4logs.output_path_labeled parent2 logf2 mp2 lcfg.dataset_output_name)) = true) :
    (∀ cls : Ml4logs.EncoderClass U F,
      Ml4logs.dictLookup (Ml4logs.available_encoder_classes_dict lenv.knownEncoderClasses) a0 =
        some cls →
      cls.className = a0 ∧ cls ∈ lenv.knownEncoderClasses) ∧
    ((∀ cls ∈ lenv.knownEncoderClasses, cls.className ≠ a0) →
      Ml4logs.embed_dataset_labeled lcfg lenv = Ml4logs.ScriptResult.keyError) := by
  constructor
  · intro cls hsel
    simp only [Ml4logs.available_encoder_classes_dict] at hsel
    have hmem := Ml4logs.dictLookup_dictOfList_mem _ a0 cls hsel
    simp only [List.mem_map] at hmem
    obtain ⟨c0, hc0, heq⟩ := hmem
    have hname : c0.className = a0 := congrArg Prod.fst heq
    have hcls : c0 = cls := congrArg Prod.snd heq
    rw [← hcls]
    exact ⟨hname, hc0⟩
  · intro hnone
    have hlook : Ml4logs.dictLookup
        (Ml4logs.available_encoder_classes_dict lenv.knownEncoderClasses) a0 = none := by
      apply Ml4logs.dictLookup_dictOfList_none
      intro p hp
      simp only [List.mem_map] at hp
      obtain ⟨c0, hc0, heq⟩ := hp
      rw [← heq]
      exact hnone c0 hc0
    simp only [Ml4logs.output_path_labeled] at hok
    simp [Ml4logs.embed_dataset_labeled, hmp2, hlog2, hlab2, hpar2, hok, harch, hlook]

/-- C9 witness: the selection theorem at a concrete run whose saved model
config names DistilBertForClsEmbedding: with a known class of that name the
selection returns it, and with no known classes the run is a KeyError. -/
theorem c9_encoder_class_selection_witness :
    ((Ml4logs.EncoderClass.mk "DistilBertForClsEmbedding" (fun n : Nat => n + 1)).className =
        "DistilBertForClsEmbedding" ∧
      Ml4logs.EncoderClass.mk "DistilBertForClsEmbedding" (fun n : Nat => n + 1) ∈
        [Ml4logs.EncoderClass.mk "DistilBertForClsEmbedding" (fun n : Nat => n + 1)]) ∧
    Ml4logs.embed_dataset_labeled
      (Ml4logs.LabeledConfig.mk (some "m.bin") "distilbert-base-cased" none (some "out")
        (some "in.log") (some "l.csv"))
      (Ml4logs.LabeledEnv.mk (fun _ => Ml4logs.PathState.absent) [("b1", ["l"])]
        [Ml4logs.LabelRow.mk "b1" "Normal"] (fun l => l.length)
        ([] : List (Ml4logs.EncoderClass Nat Nat)) ["DistilBertForClsEmbedding"]) =
      Ml4logs.ScriptResult.keyError := by
  have hs := c9_encoder_class_selection
    (Ml4logs.LabeledConfig.mk (some "m.bin") "distilbert-base-cased" none (some "out")
      (some "in.log") (some "l.csv"))
    (Ml4logs.LabeledEnv.mk (fun _ => Ml4logs.PathState.absent) [("b1", ["l"])]
      [Ml4logs.LabelRow.mk "b1" "Normal"] (fun l => l.length)
      ([Ml4logs.EncoderClass.mk "DistilBertForClsEmbedding" (fun n : Nat => n + 1)])
      ["DistilBertForClsEmbedding"])
    "m.bin" "in.log" "l.csv" "out" "DistilBertForClsEmbedding" []
    rfl rfl rfl rfl rfl rfl
  have hk := c9_encoder_class_selection
    (Ml4logs.LabeledConfig.mk (some "m.bin") "distilbert-base-cased" none (some "out")
      (some "in.log") (some "l.csv"))
    (Ml4logs.LabeledEnv.mk (fun _ => Ml4logs.PathState.absent) [("b1", ["l"])]
      [Ml4logs.LabelRow.mk "b1" "Normal"] (fun l => l.length)
      ([] : List (Ml4logs.EncoderClass Nat Nat)) ["DistilBertForClsEmbedding"])
    "m.bin" "in.log" "l.csv" "out" "DistilBertForClsEmbedding" []
    rfl rfl rfl rfl rfl rfl
  refine ⟨hs.1 (Ml4logs.EncoderClass.mk "DistilBertForClsEmbedding" (fun n : Nat => n + 1)) rfl,
    hk.2 ?_⟩
  intro cls hcls
  simp at hcls

namespace Ml4logs

/-! ## train_ict_preprocessed_data.py: model choice in run_experiment -/

/-- All argparse fields of the ICT training script (main, lines 98-117). -/
structure TrainConfig where
  two_tower : Int
  fp16 : Bool
  bert_model : String
  encoder_type : String
  train_batch_size : Int
  epochs : Int
  logging_steps : Int
  eval_steps : Int
  save_steps : Int
  save_total_limit : Int
  eval_batch_size : Int
  target_max_seq_len : Int
  context_max_seq_len : Int
  output_encode_dim : Int
  checkpoint_directory : Option String
  seed : Int
  dataset_name : Option String
  train_dataset : Option String
  eval_dataset : Option String
  wandb_project : Option String

/-- The two model wrappers from ict.py as the constructor applications made at
line 57 of run_experiment; ict.py itself is not among the provided files, so
only the applied constructor and its arguments are modelled.  Per the spec,
TwoTowerICT encodes context and target with separate encoder instances and
OneTowerICT with a single shared instance. -/
inductive ICTModel (C : Type) where
  | twoTowerICT (tower_class : C) (bert_model : String) (output_encode_dimension : Int)
  | oneTowerICT (tower_class : C) (bert_model : String) (output_encode_dimension : Int)
deriving DecidableEq

/-- The conditional expression at line 57 of run_experiment:
TwoTowerICT(...) if config.two_tower else OneTowerICT(...).  config.two_tower
is an argparse int and python truthiness makes every nonzero int true. -/
def run_experiment_model {C : Type} (config : TrainConfig) (tower_class : C) : ICTModel C :=
  if config.two_tower ≠ 0 then
    ICTModel.twoTowerICT tower_class config.bert_model config.output_encode_dim
  else
    ICTModel.oneTowerICT tower_class config.bert_model config.output_encode_dim

/-- Which of the two wrappers a model value is. -/
def ICTModel.isTwoTower {C : Type} : ICTModel C → Bool
  | .twoTowerICT _ _ _ => true
  | .oneTowerICT _ _ _ => false

end Ml4logs

/-- C5: run_experiment constructs a TwoTowerICT exactly when config.two_tower
is nonzero and a OneTowerICT otherwise, and any two configurations agreeing on
two_tower lead to the same choice, so no other configuration field affects it. -/
theorem c5_tower_choice {C C' : Type} (config : Ml4logs.TrainConfig) (tower_class : C) :
    ((Ml4logs.run_experiment_model config tower_class).isTwoTower = true ↔
      config.two_tower ≠ 0) ∧
    (∀ (config' : Ml4logs.TrainConfig) (tc' : C'),
      config'.two_tower = config.two_tower →
      (Ml4logs.run_experiment_model config' tc').isTwoTower =
        (Ml4logs.run_experiment_model config tower_class).isTwoTower) := by
  constructor
  · by_cases h : config.two_tower = 0
    · simp [Ml4logs.run_experiment_model, h, Ml4logs.ICTModel.isTwoTower]
    · simp [Ml4logs.run_experiment_model, h, Ml4logs.ICTModel.isTwoTower]
  · intro config' tc' htt
    by_cases h : config.two_tower = 0
    · simp [Ml4logs.run_experiment_model, h, htt, Ml4logs.ICTModel.isTwoTower]
    · simp [Ml4logs.run_experiment_model, h, htt, Ml4logs.ICTModel.isTwoTower]

/-- C5 witness: the tower-choice theorem at two concrete configurations that
differ in every field except two_tower. -/
theorem c5_tower_choice_witness :
    ((Ml4logs.run_experiment_model
      (Ml4logs.TrainConfig.mk 1 false "distilbert-base-cased" "DistilbertCls" 64 1 10 500 500
        25 64 512 512 100 none 42 (some "hdfs") (some "tr") (some "ev") none)
      (0 : Nat)).isTwoTower = true ↔ (1 : Int) ≠ 0) ∧
    (Ml4logs.run_experiment_model
      (Ml4logs.TrainConfig.mk 1 true "bert-base" "Other" 32 2 20 100 100
        5 32 128 128 50 (some "ckpt") 7 none none none (some "proj"))
      "tc").isTwoTower =
      (Ml4logs.run_experiment_model
        (Ml4logs.TrainConfig.mk 1 false "distilbert-base-cased" "DistilbertCls" 64 1 10 500 500
          25 64 512 512 100 none 42 (some "hdfs") (some "tr") (some "ev") none)
        (0 : Nat)).isTwoTower := by
  have h := @c5_tower_choice Nat String
    (Ml4logs.TrainConfig.mk 1 false "distilbert-base-cased" "DistilbertCls" 64 1 10 500 500
      25 64 512 512 100 none 42 (some "hdfs") (some "tr") (some "ev") none) 0
  exact ⟨h.1, h.2
    (Ml4logs.TrainConfig.mk 1 true "bert-base" "Other" 32 2 20 100 100
      5 32 128 128 50 (some "ckpt") 7 none none none (some "proj")) "tc" rfl⟩

namespace Ml4logs

/-! ## C10: the embedding pass leaves the encoder unchanged -/

/-- A torch module as the embedding scripts see it: its parameters and buffers,
its training flag, and its forward computation, a pure function of the
parameters and the tokenized input (the scripts call .eval() and run forward
under torch.no_grad, and the forward code in encoders.py only reads fields). -/
structure TorchEncoder (P T E : Type) where
  params : P
  training : Bool
  forwardFn : P → T → E

/-- encoder_model.eval(): clears the training flag, touching nothing else. -/
def TorchEncoder.evalMode {P T E : Type} (m : TorchEncoder P T E) : TorchEncoder P T E :=
  ⟨m.params, false, m.forwardFn⟩

/-- State-passing view of encode_batch (labeled script, lines 20-27): the
forward pass under torch.no_grad reads the module and assigns no field, so the
module handed back is the module passed in. -/
def encode_batch_state {P T E : Type} (tokenizer : List String → T)
    (m : TorchEncoder P T E) (batch : List String) : TorchEncoder P T E × E :=
  (m, m.forwardFn m.params (tokenizer batch))

/-- State-passing view of encode_dataset (raw script, lines 12-19), which
returns one embedding per example of the batch. -/
def encode_dataset_state {P T E : Type} (tokenizer : List String → T)
    (m : TorchEncoder P T (List E)) (examples : List String) :
    TorchEncoder P T (List E) × List E :=
  (m, m.forwardFn m.params (tokenizer examples))

end Ml4logs

/-- C10: embedding does not change the encoder: for both encode_batch and
encode_dataset the module (parameters, buffers and flags) returned by the pass
is the module passed in, eval() touches no parameter, and repeating the pass on
the module coming out of a first pass yields the same embedding. -/
theorem c10_embedding_preserves_encoder {P T E : Type} (tokenizer : List String → T)
    (m : Ml4logs.TorchEncoder P T E) (m' : Ml4logs.TorchEncoder P T (List E))
    (batch examples : List String) :
    (Ml4logs.encode_batch_state tokenizer m batch).1 = m ∧
    (Ml4logs.encode_batch_state tokenizer m batch).1.params = m.params ∧
    (Ml4logs.encode_batch_state tokenizer
        (Ml4logs.encode_batch_state tokenizer m batch).1 batch).2 =
      (Ml4logs.encode_batch_state tokenizer m batch).2 ∧
    (Ml4logs.encode_dataset_state tokenizer m' examples).1 = m' ∧
    (Ml4logs.encode_dataset_state tokenizer
        (Ml4logs.encode_dataset_state tokenizer m' examples).1 examples).2 =
      (Ml4logs.encode_dataset_state tokenizer m' examples).2 ∧
    (Ml4logs.TorchEncoder.evalMode m).params = m.params ∧
    (Ml4logs.TorchEncoder.evalMode m).forwardFn = m.forwardFn :=
  ⟨rfl, rfl, rfl, rfl, rfl, rfl, rfl⟩
